import Mathlib

/-!
Shallow embedding of `src/2/script.js` (ASCII-art webcam renderer with
zone coloring and motion detection), together with theorems checking the
specification's claims against it.

JavaScript numbers are modelled as `ℚ` where fractional values arise
(brightness averages, HSL components) and as `ℕ`/`ℤ` where the program
only ever holds integers (pixel coordinates, byte values, indices).
All inputs exercised below are exactly representable, and no comparison
is at a float rounding boundary, so the rational semantics agrees with
the IEEE-double semantics of the source at every point used.
-/

namespace Art

/-- `const fontSize = 4;` -/
def fontSize : ℕ := 4

/-- `const chars = " @%#*+=-:. ";` (11 characters, space at both ends). -/
def chars : List Char := [' ', '@', '%', '#', '*', '+', '=', '-', ':', '.', ' ']

/-- `const motionThreshold = 8;` -/
def motionThreshold : ℤ := 8

/-- An HSL color as produced by `getColor`'s template strings
`hsl(h, s%, l%)`. -/
structure HSL where
  hue : ℚ
  sat : ℚ
  lit : ℚ
deriving DecidableEq, Repr

/-- `const lit = Math.max(30, Math.min(80, (brightness / 255) * 100));`
(line 38 of `script.js`). -/
def lightness (brightness : ℚ) : ℚ :=
  max 30 (min 80 (brightness / 255 * 100))

/-- `getColor(y, height, x, width, brightness)` (lines 36–59).
The middle-band test `Math.sqrt((x-cx)**2 + (y-cy)**2) < height / 6`
is embedded as the equivalent squared comparison
`(x-cx)^2 + (y-cy)^2 < (height/6)^2`: both sides of the source's
comparison are nonnegative, so squaring preserves it. -/
def getColor (y height x width brightness : ℚ) : HSL :=
  let lit := lightness brightness
  if y < height / 3 then
    HSL.mk 25 100 lit
  else if y < height / 3 * 2 then
    let cx := width / 2
    let cy := height / 2
    let distSq := (x - cx) ^ 2 + (y - cy) ^ 2
    if distSq < (height / 6) ^ 2 then
      HSL.mk 240 100 lit
    else
      HSL.mk 0 0 lit
  else
    HSL.mk 130 90 lit

/-- The three horizontal bands of `getColor`'s branch structure. -/
inductive Zone
  | top
  | middle
  | bottom
deriving DecidableEq, Repr

/-- The zone a row belongs to, mirroring exactly the two guards
`y < height / 3` and `y < (height / 3) * 2` of `getColor`. -/
def zoneOf (y height : ℚ) : Zone :=
  if y < height / 3 then Zone.top
  else if y < height / 3 * 2 then Zone.middle
  else Zone.bottom

/-- `const charIndex = Math.floor((avg / 255) * (chars.length - 1));`
(line 100), generalized over the palette length `n`. -/
def charIndex (avg : ℚ) (n : ℕ) : ℤ :=
  ⌊avg / 255 * ((n : ℚ) - 1)⌋

/-- The index actually read from the palette:
`chars[chars.length - 1 - charIndex]` (line 102). -/
def glyphIndex (avg : ℚ) (n : ℕ) : ℤ :=
  (n : ℤ) - 1 - charIndex avg n

/-- The character drawn for a brightness average: `none` models the
JavaScript `undefined` of an out-of-range string index. -/
def selectedChar (avg : ℚ) (palette : List Char) : Option Char :=
  palette.get? (glyphIndex avg palette.length).toNat

/-- `const isMoving = diff > motionThreshold;` with
`diff = Math.abs(g - prevG)` (lines 92–96). -/
def isMovingB (g prevG : ℕ) : Bool :=
  decide (motionThreshold < |(g : ℤ) - (prevG : ℤ)|)

/-- `const i = (y * canvas.width + x) * 4;` (line 84). -/
def pixelIndex (width x y : ℕ) : ℕ :=
  (y * width + x) * 4

/-- The green channel of a frame buffer at a grid cell: `data[i+1]`. -/
def greenAt (data : List ℕ) (width x y : ℕ) : ℕ :=
  data.getD (pixelIndex width x y + 1) 0

/-- Whether a cell is flagged as moving when the current frame `data`
is diffed against the history buffer `prev`. -/
def cellMoving (data prev : List ℕ) (width x y : ℕ) : Bool :=
  isMovingB (greenAt data width x y) (greenAt prev width x y)

/-- Lines 76–78: `if (previousFrameData.length !== data.length)
{ previousFrameData = new Uint8ClampedArray(data); }` — the history
buffer the tick actually diffs against. -/
def effectivePrev (prev data : List ℕ) : List ℕ :=
  if prev.length ≠ data.length then data else prev

/-- `dst.set(src)` on a typed array: `src`'s bytes overwrite the prefix
of `dst`. -/
def typedArraySet (dst src : List ℕ) : List ℕ :=
  src ++ dst.drop src.length

/-- The motion flag a tick computes for a cell, starting from history
buffer `prev` and current frame `data` (lines 76–96). -/
def tickMoving (prev data : List ℕ) (width x y : ℕ) : Bool :=
  cellMoving data (effectivePrev prev data) width x y

/-- The history buffer after a tick: the per-tick reallocation (lines
76–78) followed by `previousFrameData.set(data)` (line 125). -/
def tickNewPrev (prev data : List ℕ) : List ℕ :=
  typedArraySet (effectivePrev prev data) data

/-- `handleResize` resets the history: `previousFrameData = [];`
(line 139). -/
def handleResizePrev : List ℕ := []

/-- What `draw` emits for one cell inside the `if (avg > 15)` guard:
glyph, fill color and global alpha. -/
structure CellDraw where
  glyph : Option Char
  color : HSL
  opacity : ℚ
deriving DecidableEq, Repr

/-- One cell of the scan loop (lines 82–119): sample `r`,`g`,`b`,
average them, and if `avg > 15` emit the glyph, the color from
`getColor`, and opacity `1.0` when moving else `0.3`. `none` models a
suppressed cell (no glyph drawn at all). -/
def renderCell (x y width height r g b prevG : ℕ) : Option CellDraw :=
  let avg : ℚ := ((r : ℚ) + g + b) / 3
  let moving := isMovingB g prevG
  if avg > 15 then
    some (CellDraw.mk (selectedChar avg chars)
      (getColor (y : ℚ) (height : ℚ) (x : ℚ) (width : ℚ) avg)
      (if moving then 1 else 3 / 10))
  else
    none

end Art

namespace Art

/-! ## Claim theorems -/

/-- C6: zone classification partitions rows by thirds with half-open
bounds: for `height = 300`, row 99 is top-zone, rows 100 and 199 are
middle-zone, row 200 is bottom-zone; `getColor` emits the saffron hue 25
at row 99 and the green hue 130 at row 200 accordingly. -/
theorem zone_boundaries_300 :
    zoneOf 99 300 = Zone.top ∧
    zoneOf 100 300 = Zone.middle ∧
    zoneOf 199 300 = Zone.middle ∧
    zoneOf 200 300 = Zone.bottom ∧
    (∀ x w b : ℚ, (getColor 99 300 x w b).hue = 25) ∧
    (∀ x w b : ℚ, (getColor 200 300 x w b).hue = 130) := by
  refine ⟨by norm_num [zoneOf], by norm_num [zoneOf], by norm_num [zoneOf],
    by norm_num [zoneOf], fun x w b => ?_, fun x w b => ?_⟩
  · norm_num [getColor]
  · norm_num [getColor]

/-- C7: the lightness used by `getColor` equals
`clamp(30, 80, brightness/255*100)` in every branch; brightness 0 gives
exactly 30, brightness 255 exactly 80, and brightness 127 and 128 give
values strictly between 30 and 80. -/
theorem lightness_clamp :
    (∀ y h x w b : ℚ, (getColor y h x w b).lit = max 30 (min 80 (b / 255 * 100))) ∧
    lightness 0 = 30 ∧
    lightness 255 = 80 ∧
    (30 < lightness 127 ∧ lightness 127 < 80) ∧
    (30 < lightness 128 ∧ lightness 128 < 80) := by
  refine ⟨fun y h x w b => ?_, by norm_num [lightness], by norm_num [lightness],
    by norm_num [lightness], by norm_num [lightness]⟩
  unfold getColor lightness
  dsimp only
  split
  · rfl
  · split
    · split <;> rfl
    · rfl

end Art

namespace Art

/-- C5: the glyph-suppression guard `if (avg > 15)` is a strict
threshold: a cell emits a glyph exactly when its sampled average exceeds
15; in particular `r = g = b = 15` (average 15) is suppressed and
`r = g = b = 16` (average 16) is emitted. -/
theorem suppression_boundary :
    (∀ x y w h r g b p : ℕ,
      (renderCell x y w h r g b p).isSome = true ↔ 15 < ((r : ℚ) + g + b) / 3) ∧
    (∀ x y w h p : ℕ, renderCell x y w h 15 15 15 p = none) ∧
    (∀ x y w h p : ℕ, (renderCell x y w h 16 16 16 p).isSome = true) := by
  refine ⟨fun x y w h r g b p => ?_, fun x y w h p => ?_, fun x y w h p => ?_⟩
  · unfold renderCell
    dsimp only
    split <;> simp [*]
  · norm_num [renderCell]
  · norm_num [renderCell]

/-- C2: for a palette of length `n ≥ 2` the index is
`⌊(avg/255)·(n-1)⌋` and the glyph read is at `n - 1 - idx`; brightness 0
therefore lands on glyph index `n-1` and brightness 255 on glyph
index 0. -/
theorem glyph_inversion (n : ℕ) (h : 2 ≤ n) :
    charIndex 0 n = 0 ∧ charIndex 255 n = (n : ℤ) - 1 ∧
    glyphIndex 0 n = (n : ℤ) - 1 ∧ glyphIndex 255 n = 0 := by
  have h1 : charIndex 0 n = 0 := by
    simp [charIndex]
  have h2 : charIndex 255 n = (n : ℤ) - 1 := by
    unfold charIndex
    rw [show (255 : ℚ) / 255 * ((n : ℚ) - 1) = (((n : ℤ) - 1 : ℤ) : ℚ) by
      push_cast; ring]
    exact Int.floor_intCast _
  exact ⟨h1, h2, by simp [glyphIndex, h1], by simp [glyphIndex, h2]⟩

/-- Witness for C2 at the source's palette length 11. -/
theorem glyph_inversion_witness :
    2 ≤ 11 ∧ (charIndex 0 11 = 0 ∧ charIndex 255 11 = (11 : ℤ) - 1 ∧
      glyphIndex 0 11 = (11 : ℤ) - 1 ∧ glyphIndex 255 11 = 0) :=
  ⟨by norm_num, glyph_inversion 11 (by norm_num)⟩

/-- C10: the default palette has length 11 with a space at both ends,
so average brightness 255 (glyph index 0) and any non-suppressed average
strictly between 15 and 25.5 (glyph index 10) both draw a blank
space. -/
theorem blank_space_extremes :
    chars.length = 11 ∧
    chars.get? 0 = some ' ' ∧
    chars.get? 10 = some ' ' ∧
    selectedChar 255 chars = some ' ' ∧
    (∀ avg : ℚ, 15 < avg → avg < 51 / 2 → selectedChar avg chars = some ' ') := by
  refine ⟨rfl, rfl, rfl, by norm_num [selectedChar, glyphIndex, charIndex, chars],
    fun avg h1 h2 => ?_⟩
  have hfloor : charIndex avg 11 = 0 := by
    unfold charIndex
    rw [Int.floor_eq_zero_iff, Set.mem_Ico]
    constructor
    · nlinarith
    · nlinarith
  have hlen : chars.length = 11 := rfl
  unfold selectedChar
  rw [hlen, glyphIndex, hfloor]
  rfl

/-- Witness for C10 at average brightness 20. -/
theorem blank_space_extremes_witness :
    15 < (20 : ℚ) ∧ (20 : ℚ) < 51 / 2 ∧ selectedChar 20 chars = some ' ' :=
  ⟨by norm_num, by norm_num,
    blank_space_extremes.2.2.2.2 20 (by norm_num) (by norm_num)⟩

/-- C1 counterexample: at `width = height = 300` the cell `(150, 101)`
has distance 49 < 50 = height/6 from the center, so `getColor`
classifies it navy (hue 240, saturation 100), not the neutral
zero-saturation color the claim asserts. -/
theorem chakra_101_counterexample :
    (getColor 101 300 150 300 128).sat ≠ 0 ∧
    getColor 101 300 150 300 128 = HSL.mk 240 100 (lightness 128) := by
  constructor
  · norm_num [getColor]
  · norm_num [getColor]

/-- C1 amended: for `width = height = 300`, the exact center `(150,150)`
is navy; the middle-zone cell `(150,100)` is at distance exactly 50 =
height/6 (not strictly inside the disc) and is the neutral
zero-saturation color; `(150,101)`, at distance 49, is inside the disc
and hence navy as well. -/
theorem chakra_disc_amended (b : ℚ) :
    getColor 150 300 150 300 b = HSL.mk 240 100 (lightness b) ∧
    getColor 100 300 150 300 b = HSL.mk 0 0 (lightness b) ∧
    getColor 101 300 150 300 b = HSL.mk 240 100 (lightness b) := by
  refine ⟨?_, ?_, ?_⟩ <;> norm_num [getColor]

end Art

namespace Art

/-- Distinct in-bounds grid cells read distinct pixel indices. -/
lemma pixelIndex_inj (width x y x₀ y₀ : ℕ) (hx : x < width) (hx₀ : x₀ < width)
    (h : pixelIndex width x y = pixelIndex width x₀ y₀) : x = x₀ ∧ y = y₀ := by
  unfold pixelIndex at h
  have h4 : y * width + x = y₀ * width + x₀ := by omega
  have hxx : x = x₀ := by
    have h5 : x + y * width = x₀ + y₀ * width := by omega
    have := congrArg (· % width) h5
    simpa [Nat.add_mul_mod_self_right, Nat.mod_eq_of_lt hx,
      Nat.mod_eq_of_lt hx₀] using this
  subst hxx
  have hw : 0 < width := Nat.lt_of_le_of_lt (Nat.zero_le x) hx
  have hyy : y = y₀ := by
    have hmul : y * width = y₀ * width := by omega
    exact Nat.eq_of_mul_eq_mul_right hw hmul
  exact ⟨rfl, hyy⟩

/-- C3: with the default threshold 8, a cell is flagged moving exactly
when its green-channel difference is strictly greater than 8: if the two
buffers agree except at one cell's green byte, a difference of 9 flags
that cell (and no other in-bounds cell), while a difference of 8 does
not flag it. -/
theorem motion_threshold_strict (data prev : List ℕ) (width x₀ y₀ : ℕ)
    (hx₀ : x₀ < width)
    (hsame : ∀ j, j ≠ pixelIndex width x₀ y₀ + 1 → data.getD j 0 = prev.getD j 0) :
    (|(greenAt data width x₀ y₀ : ℤ) - (greenAt prev width x₀ y₀ : ℤ)| = 9 →
      cellMoving data prev width x₀ y₀ = true) ∧
    (|(greenAt data width x₀ y₀ : ℤ) - (greenAt prev width x₀ y₀ : ℤ)| = 8 →
      cellMoving data prev width x₀ y₀ = false) ∧
    (∀ x y, x < width → (x, y) ≠ (x₀, y₀) →
      cellMoving data prev width x y = false) := by
  refine ⟨fun h9 => ?_, fun h8 => ?_, fun x y hx hne => ?_⟩
  · simp [cellMoving, isMovingB, motionThreshold, h9]
  · simp [cellMoving, isMovingB, motionThreshold, h8]
  · have hidx : pixelIndex width x y + 1 ≠ pixelIndex width x₀ y₀ + 1 := by
      intro hcontra
      have heq : pixelIndex width x y = pixelIndex width x₀ y₀ := by omega
      obtain ⟨hxe, hye⟩ := pixelIndex_inj width x y x₀ y₀ hx hx₀ heq
      exact hne (by rw [hxe, hye])
    have hg : greenAt data width x y = greenAt prev width x y :=
      hsame (pixelIndex width x y + 1) hidx
    simp [cellMoving, isMovingB, motionThreshold, hg]

/-- Witness for C3: a one-cell-wide frame pair differing by exactly 9 at
the green byte of cell `(0,0)`. -/
theorem motion_threshold_strict_witness :
    (0 : ℕ) < 1 ∧ cellMoving [0, 9, 0, 0] [0, 0, 0, 0] 1 0 0 = true := by
  refine ⟨by decide, (motion_threshold_strict [0, 9, 0, 0] [0, 0, 0, 0] 1 0 0
    (by decide) ?_).1 (by decide)⟩
  intro j hj
  match j with
  | 0 => rfl
  | 1 => exact absurd rfl hj
  | 2 => rfl
  | 3 => rfl
  | n + 4 => rfl

end Art

namespace Art

/-- After any tick, the history buffer is byte-for-byte the current
frame: the reallocation guard leaves a buffer of `data`'s length, and
`previousFrameData.set(data)` then overwrites all of it with `data`. -/
lemma tickNewPrev_eq (prev data : List ℕ) : tickNewPrev prev data = data := by
  unfold tickNewPrev typedArraySet effectivePrev
  split
  · simp
  · next hne =>
    have hlen : prev.length = data.length := by
      by_contra hc
      exact hne hc
    simp [List.drop_eq_nil_of_le (le_of_eq hlen)]

/-- C4: after a resize (history cleared to `[]`), the first tick's
motion flag is `false` at every cell regardless of the frame contents,
and the second tick diffs against the first post-resize frame. -/
theorem resize_invalidation (data₁ data₂ : List ℕ)
    (h1 : data₁ ≠ []) (hlen : data₂.length = data₁.length) :
    (∀ width x y, tickMoving handleResizePrev data₁ width x y = false) ∧
    tickNewPrev handleResizePrev data₁ = data₁ ∧
    (∀ width x y, tickMoving (tickNewPrev handleResizePrev data₁) data₂ width x y
        = cellMoving data₂ data₁ width x y) := by
  have heff : effectivePrev handleResizePrev data₁ = data₁ := by
    unfold effectivePrev handleResizePrev
    rw [if_pos]
    simpa using fun hc => h1 (List.eq_nil_of_length_eq_zero hc.symm)
  refine ⟨fun width x y => ?_, tickNewPrev_eq _ _, fun width x y => ?_⟩
  · unfold tickMoving
    rw [heff]
    simp [cellMoving, isMovingB, motionThreshold]
  · unfold tickMoving
    rw [tickNewPrev_eq]
    unfold effectivePrev
    rw [if_neg]
    simpa using hlen.symm

/-- Witness for C4: a 1×1 post-resize frame followed by a second frame
of the same size. -/
theorem resize_invalidation_witness :
    ([1, 2, 3, 4] : List ℕ) ≠ [] ∧
    (∀ width x y, tickMoving handleResizePrev [1, 2, 3, 4] width x y = false) ∧
    tickNewPrev handleResizePrev [1, 2, 3, 4] = [1, 2, 3, 4] :=
  ⟨by decide,
    (resize_invalidation [1, 2, 3, 4] [9, 2, 3, 4] (by decide) (by decide)).1,
    (resize_invalidation [1, 2, 3, 4] [9, 2, 3, 4] (by decide) (by decide)).2.1⟩

/-- C8: at the end of every tick the history buffer equals the current
frame buffer byte for byte, so its length matches the frame's and the
next tick diffs against exactly the preceding frame. -/
theorem history_overwrite (prev data : List ℕ) :
    tickNewPrev prev data = data ∧
    (tickNewPrev prev data).length = data.length := by
  have h := tickNewPrev_eq prev data
  exact ⟨h, by rw [h]⟩

/-- C9: for an emitted cell, the motion flag determines exactly the
opacity (`1` when moving, `3/10` when static); the glyph and the color
are unchanged under any change of the history byte `p` feeding the
motion flag. -/
theorem motion_opacity_only (x y w h r g b p q : ℕ) (c : CellDraw)
    (hc : renderCell x y w h r g b p = some c) :
    c.opacity = (if isMovingB g p then 1 else 3 / 10) ∧
    ∃ c2 : CellDraw, renderCell x y w h r g b q = some c2 ∧
      c2.glyph = c.glyph ∧ c2.color = c.color := by
  unfold renderCell at hc ⊢
  dsimp only at hc ⊢
  split at hc
  · next havg =>
    have hcc := (Option.some_inj.mp hc).symm
    subst hcc
    rw [if_pos havg]
    exact ⟨rfl, _, rfl, rfl, rfl⟩
  · exact absurd hc (by simp)

/-- Witness for C9: a full-white cell with an unchanged history byte
(static, opacity `3/10`) and history byte 0 for the second run. -/
theorem motion_opacity_only_witness :
    (CellDraw.mk (some ' ') (HSL.mk 25 100 80) (3 / 10)).opacity
        = (if isMovingB 255 255 then 1 else 3 / 10) ∧
    ∃ c2 : CellDraw, renderCell 0 0 300 300 255 255 255 0 = some c2 ∧
      c2.glyph = (CellDraw.mk (some ' ') (HSL.mk 25 100 80) (3 / 10)).glyph ∧
      c2.color = (CellDraw.mk (some ' ') (HSL.mk 25 100 80) (3 / 10)).color :=
  motion_opacity_only 0 0 300 300 255 255 255 255 0
    (CellDraw.mk (some ' ') (HSL.mk 25 100 80) (3 / 10))
    (by norm_num [renderCell, selectedChar, glyphIndex, charIndex, chars,
      getColor, lightness, isMovingB, motionThreshold])

end Art
